import Mathlib

/-!
Verification of `zone_cluster_v2.py` (geocoding and zone partitioning engine).

The Python program is shallowly embedded here.  Pure helpers become Lean
functions over `String`, `ℚ` and lists; the external services the program
calls (HTTP transport, scikit-learn's KMeans and silhouette score) are
modelled as explicit oracle parameters, with their documented contracts
appearing as hypotheses where a claim depends on them.  `float('nan')`
sentinels become an explicit constructor, and code that can raise
`SystemExit` or an uncaught exception returns `Except String`.
-/

namespace ZoneCluster

/-! ### Cluster-count selection (`choose_best_k`, src lines 40-50)

`KMeans(...).fit_predict(X)` and `silhouette_score(X, labels)` are external
library calls; with the random seed fixed they are functions of `k`.  The
scan of `choose_best_k` is embedded parametrically over those two
functions: `labels k` is the label vector KMeans produces for candidate
count `k`, and `score k` is the silhouette score of that labelling. -/

/-- `len(set(labels)) == 1`: the partition collapsed to a single label. -/
def degenerate (ls : List Nat) : Bool := ls.dedup.length == 1

/-- One iteration of the `for k in range(kmin, kmax+1)` loop body:
skip degenerate `k`, otherwise update `(best_k, best_score)` on strict
improvement (`score > best_score`). -/
def bestStep (labels : Nat → List Nat) (score : Nat → ℚ) (acc : Nat × ℚ)
    (k : Nat) : Nat × ℚ :=
  if degenerate (labels k) then acc
  else if acc.2 < score k then (k, score k) else acc

/-- `range(kmin, kmax + 1)`. -/
def kRange (kmin kmax : Nat) : List Nat := List.range' kmin (kmax + 1 - kmin)

/-- `choose_best_k`: scan candidates in increasing order starting from
`best_k, best_score = kmin, -1` and return the final `best_k`. -/
def choose_best_k (labels : Nat → List Nat) (score : Nat → ℚ)
    (kmin kmax : Nat) : Nat :=
  ((kRange kmin kmax).foldl (bestStep labels score) (kmin, -1)).1

/-! ### Geocoding adapters (`_http_json`, `geocode_*`, src lines 69-118)

Each live adapter loops over the queries, builds a provider URL, fetches
and parses JSON via `_http_json`, and appends either the first candidate's
coordinate or the `(nan, nan)` sentinel.  The HTTP transport together with
the provider-specific JSON parse is modelled by an oracle
`http : String → Except String (Option (ℚ × ℚ))`: `.error e` is an
uncaught transport or parse exception, `.ok none` is a well-formed
response with zero candidates, `.ok (some c)` a response whose first
candidate carries coordinate `c`.  There is no `try`/`except` in the
Python loop, so an oracle `.error` propagates out of the whole call.  The
rate-limit `time.sleep(delay)` has no observable effect in this model. -/
/-- One geocoding outcome as appended by the adapters: a coordinate pair,
or the `(float('nan'), float('nan'))` sentinel. -/
inductive GeoResult where
  | coords (lat lon : ℚ)
  | sentinel
deriving DecidableEq

/-- Turn a parsed response into the stored outcome: first candidate's
coordinate, or the sentinel when the candidate list is empty. -/
def mkResult : Option (ℚ × ℚ) → GeoResult
  | some (lat, lon) => .coords lat lon
  | none => .sentinel

/-- The outcome an adapter stores for query `q` when no exception occurs. -/
def resultOf (http : String → Except String (Option (ℚ × ℚ)))
    (q : String) : GeoResult :=
  match http q with
  | .ok r => mkResult r
  | .error _ => .sentinel

/-- The adapter loop `for q in queries: data = _http_json(url); ...`.
Returns the batch outcome together with the list of queries for which a
request was actually issued.  An exception on one query aborts the loop:
no later query is requested. -/
def runQueries (http : String → Except String (Option (ℚ × ℚ))) :
    List String → Except String (List GeoResult) × List String
  | [] => (.ok [], [])
  | q :: t =>
    match http q with
    | .error e => (.error e, [q])
    | .ok r =>
      match runQueries http t with
      | (.ok rs, tr) => (.ok (mkResult r :: rs), q :: tr)
      | (.error e, tr) => (.error e, q :: tr)

/-- `geocode_opencage`: missing key is a fatal `SystemExit` before any
request; otherwise the sequential query loop. An absent key is modelled
as the empty string (Python `if not api_key`). -/
def geocode_opencage (apiKey : String)
    (http : String → Except String (Option (ℚ × ℚ)))
    (queries : List String) : Except String (List GeoResult) × List String :=
  if apiKey = "" then
    (.error "OpenCage selected but no --opencage-key provided.", [])
  else runQueries http queries

/-- `geocode_geoapify`: same loop shape; the provider-specific URL and the
`(lon, lat)`-ordered feature parse live inside the oracle. -/
def geocode_geoapify (apiKey : String)
    (http : String → Except String (Option (ℚ × ℚ)))
    (queries : List String) : Except String (List GeoResult) × List String :=
  if apiKey = "" then
    (.error "Geoapify selected but no --geoapify-key provided.", [])
  else runQueries http queries

/-- `geocode_google`: same loop shape; URL and `geometry.location` parse
live inside the oracle. -/
def geocode_google (apiKey : String)
    (http : String → Except String (Option (ℚ × ℚ)))
    (queries : List String) : Except String (List GeoResult) × List String :=
  if apiKey = "" then
    (.error "Google selected but no --google-key provided.", [])
  else runQueries http queries

/-- An oracle whose query `"b"` hits a transport fault while `"a"` and
`"c"` resolve. -/
def httpFaultOnB : String → Except String (Option (ℚ × ℚ)) :=
  fun q =>
    if q = "a" then .ok (some (1, 2))
    else if q = "b" then .error "URLError"
    else .ok (some (3, 4))

/-- An oracle where query `"nf"` gets a zero-candidate response and every
other query resolves to `(7, 8)`. -/
def httpNoMatchOnNf : String → Except String (Option (ℚ × ℚ)) :=
  fun q => if q = "nf" then .ok none else .ok (some (7, 8))

/-! ### Tabular working set and `assemble_query` (src lines 54-67)

A pandas `DataFrame` is modelled as a declared column list plus one
association list of cells per row.  Python's `str()` of a cell renders a
string as itself and `float('nan')` as `"nan"`; `row.get(c, "")` defaults
to the empty string when the column is absent; `.strip()` is `pyStrip`
and `x in y` on lowered strings is substring containment. -/
/-- A cell of the working table: a string field, a numeric field, or
`float('nan')` (pandas' missing value / the geocode failure sentinel). -/
inductive Cell where
  | str (s : String)
  | num (q : ℚ)
  | nan
deriving DecidableEq

/-- One table row as a column-to-cell association list. -/
abbrev Row := List (String × Cell)

/-- A DataFrame: declared columns and rows. -/
structure DataFrame where
  cols : List String
  rows : List Row
deriving DecidableEq

/-- Python `str()` applied to a cell (`str(nan)` is `"nan"`). -/
def cellStr : Cell → String
  | .str s => s
  | .num q => toString q
  | .nan => "nan"

/-- `str(row.get(c, ""))`. -/
def rowGetStr (r : Row) (c : String) : String :=
  match r.lookup c with
  | some cell => cellStr cell
  | none => ""

/-- `c in row`: the row has the column. -/
def rowHas (r : Row) (c : String) : Bool := (r.lookup c).isSome

/-- Python `str.strip()`: drop whitespace from both ends. -/
def pyStrip (s : String) : String :=
  String.mk
    (((s.toList.dropWhile Char.isWhitespace).reverse.dropWhile
      Char.isWhitespace).reverse)

/-- Python `str.lower()`. -/
def pyLower (s : String) : String := String.mk (s.toList.map Char.toLower)

/-- Substring containment on character lists (Python's `in` operator). -/
def charsContain (needle : List Char) : List Char → Bool
  | [] => needle.isEmpty
  | c :: t => needle.isPrefixOf (c :: t) || charsContain needle t

/-- `needle in hay` for strings. -/
def strContains (hay needle : String) : Bool :=
  charsContain needle.toList hay.toList

/-- `assemble_query(row, city_context)`: use the stripped `"Address"`
column when present and non-blank, else join the stripped non-empty
components `address, city, state, zip` with `", "`; in either branch
append `", <context>"` when a truthy context's lowercase form is not a
substring of the lowercased query.  A falsy Python context (`None` or
`""`) is `none` or `some ""`. -/
def assemble_query (r : Row) (cityContext : Option String) : String :=
  if rowHas r "Address" && (pyStrip (rowGetStr r "Address") != "") then
    let q := pyStrip (rowGetStr r "Address")
    match cityContext with
    | some ctx =>
        if ctx != "" && !strContains (pyLower q) (pyLower ctx) then
          q ++ ", " ++ ctx
        else q
    | none => q
  else
    let parts := (["address", "city", "state", "zip"].map
      (fun c => pyStrip (rowGetStr r c))).filter (fun s => s != "")
    let q := String.intercalate ", " parts
    match cityContext with
    | some ctx =>
        if ctx != "" && !strContains (pyLower q) (pyLower ctx) then
          q ++ ", " ++ ctx
        else q
    | none => q

/-- The amended claim, written from the spec's wording with stripping made
explicit: the assembled base query is the whitespace-stripped full-address
field when that strip is non-empty, otherwise the stripped non-empty
components joined in the fixed order with `", "`; afterwards a supplied
truthy context is appended as `", <context>"` exactly when its lowercase
form is not a substring of the lowercased base query. -/
def assembleQueryAmended (r : Row) (cityContext : Option String) : String :=
  let base :=
    if rowHas r "Address" && (pyStrip (rowGetStr r "Address") != "") then
      pyStrip (rowGetStr r "Address")
    else
      String.intercalate ", " ((["address", "city", "state", "zip"].map
        (fun c => pyStrip (rowGetStr r c))).filter (fun s => s != ""))
  match cityContext with
  | some ctx =>
      if ctx != "" && !strContains (pyLower base) (pyLower ctx) then
        base ++ ", " ++ ctx
      else base
  | none => base

/-! ### Coordinate resolution (`geocode_df`, src lines 120-143, and the
empty-set guard of `main`, src lines 292-293) -/

/-- `{"lat","lon"}.issubset(df.columns)`. -/
def hasBoth (df : DataFrame) : Bool :=
  df.cols.contains "lat" && df.cols.contains "lon"

/-- Add a column name if not already declared. -/
def addCol (cols : List String) (c : String) : List String :=
  if cols.contains c then cols else cols ++ [c]

/-- Overwrite (or create) one cell of a row. -/
def setCell (r : Row) (c : String) (v : Cell) : Row :=
  (r.filter (fun p => p.1 != c)) ++ [(c, v)]

/-- Attach one geocode outcome to a row, as the column assignment plus
`dropna(subset=["lat","lon"])` do: a coordinate pair is stored in the
`lat`/`lon` columns, a `(nan, nan)` sentinel makes the row dropped. -/
def attachCoord (r : Row) : GeoResult → Option Row
  | .coords lat lon =>
      some (setCell (setCell r "lat" (.num lat)) "lon" (.num lon))
  | .sentinel => none

/-- `geocode_df`: pass straight through when both coordinate columns are
declared; otherwise assemble one query per row, run the selected adapter,
attach the results and drop the sentinel rows.  The second component is
the list of queries for which an HTTP request was issued. -/
def geocode_df (df : DataFrame) (gname : String) (keys : String → String)
    (http : String → Except String (Option (ℚ × ℚ))) (ctx : Option String) :
    Except String DataFrame × List String :=
  if hasBoth df then (.ok df, [])
  else
    let queries := df.rows.map (fun r => assemble_query r ctx)
    let res :=
      if gname = "opencage" then
        geocode_opencage (keys "opencage") http queries
      else if gname = "geoapify" then
        geocode_geoapify (keys "geoapify") http queries
      else if gname = "google" then
        geocode_google (keys "google") http queries
      else if gname = "qgis" then
        (.error ("QGIS geocoding is a desktop plugin, not a hosted API. " ++
          "Geocode in QGIS and export lat/lon, then re-run this tool " ++
          "(it will skip geocoding)."), [])
      else (.error ("Unknown geocoder: " ++ gname), [])
    match res with
    | (.error e, tr) => (.error e, tr)
    | (.ok coords, tr) =>
        (.ok { cols := addCol (addCol df.cols "lat") "lon",
               rows := (df.rows.zip coords).filterMap
                 (fun p => attachCoord p.1 p.2) }, tr)

/-- The diagnostic of `main`'s empty-set guard. -/
def emptyMsg : String := "No rows with valid lat/lon. Check input and API keys."

/-- `main` lines 291-293: run `geocode_df`, then abort fatally when the
resolved table is empty. -/
def resolveRecords (df : DataFrame) (gname : String) (keys : String → String)
    (http : String → Except String (Option (ℚ × ℚ))) (ctx : Option String) :
    Except String DataFrame × List String :=
  match geocode_df df gname keys http ctx with
  | (.error e, tr) => (.error e, tr)
  | (.ok out, tr) =>
      (if out.rows.isEmpty then .error emptyMsg else .ok out, tr)

/-- A two-row component-address table (no coordinate columns). -/
def dfTwoAddresses : DataFrame :=
  { cols := ["address"],
    rows := [[("address", Cell.str "12 Oak")], [("address", Cell.str "9 Pine")]] }

/-- An oracle that resolves query `"12 Oak"` and finds nothing for any
other query. -/
def httpOakOnly : String → Except String (Option (ℚ × ℚ)) :=
  fun q => if q = "12 Oak" then .ok (some (1, 2)) else .ok none

/-! ### Zone assignment (`main`, src lines 296-302)

`KMeans(n_clusters=k, n_init=n, random_state=seed)` fitted on `X` is an
external, deterministic-for-fixed-seed computation; it is modelled as an
oracle producing `fit_predict`'s label vector and `cluster_centers_`.
sklearn's contract — labels in `{0..k-1}`, every cluster non-empty when
there are at least `k` samples, and at convergence each center the mean
of its members — appears as hypotheses on the oracle where a claim needs
it. -/

/-- `fit_predict` labels plus `cluster_centers_` of one KMeans run. -/
structure KMeansResult where
  labels : List Nat
  centers : List (ℚ × ℚ)
deriving DecidableEq

/-- The KMeans oracle: point matrix, `n_clusters`, `n_init`, seed. -/
abbrev KMeansOracle := List (ℚ × ℚ) → Nat → Nat → Nat → KMeansResult

/-- `df["zone"] = km.fit_predict(X) + 1` with the final run's
`n_init=25`. -/
def zoneLabels (km : KMeansOracle) (X : List (ℚ × ℚ)) (k seed : Nat) :
    List Nat :=
  (km X k 25 seed).labels.map (· + 1)

/-- `centers = pd.DataFrame(km.cluster_centers_); centers["zone"] =
range(1, k+1)`: row `i` of `cluster_centers_` is paired with zone label
`i + 1`. -/
def centersTable (km : KMeansOracle) (X : List (ℚ × ℚ)) (k seed : Nat) :
    List ((ℚ × ℚ) × Nat) :=
  (km X k 25 seed).centers.zip (List.range' 1 k)

/-- The points of `X` carrying label `i` in a label vector. -/
def membersOf (X : List (ℚ × ℚ)) (ls : List Nat) (i : Nat) :
    List (ℚ × ℚ) :=
  (X.zip ls).filterMap (fun p => if p.2 = i then some p.1 else none)

/-- Coordinate-wise arithmetic mean of a point list. -/
def meanPoint (ps : List (ℚ × ℚ)) : ℚ × ℚ :=
  ((ps.map Prod.fst).sum / ps.length, (ps.map Prod.snd).sum / ps.length)

/-- A constant KMeans oracle splitting two points into two clusters. -/
def kmTwo : KMeansOracle := fun _ _ _ _ => ⟨[0, 1], [(0, 0), (2, 2)]⟩

/-! ### Determinism of the selector plus assigner (C9)

One program run's KMeans and silhouette evaluations are one oracle pair;
a second run of the same program is a second pair.  sklearn's
reproducibility contract for a fixed `random_state` says the two runs'
oracles agree as functions of the input; under exactly that agreement the
composed selector and assigner must produce identical output. -/
/-- `main`'s clustering stage: select `k` by scanning with `n_init=10`
KMeans runs scored by silhouette, then label with an `n_init=25` run at
the selected `k`; both with the same fixed seed. -/
def pipelineRun (km : KMeansOracle) (sil : List (ℚ × ℚ) → List Nat → ℚ)
    (X : List (ℚ × ℚ)) (kmin kmax seed : Nat) : Nat × List Nat :=
  let k := choose_best_k (fun k => (km X k 10 seed).labels)
    (fun k => sil X (km X k 10 seed).labels) kmin kmax
  (k, zoneLabels km X k seed)

/-! ### Zone hulls in the Google-map export (src lines 175-187)

`shapely.geometry.MultiPoint(pts).convex_hull` is modelled by Andrew's
monotone chain over exact rationals: the same convex hull of the same
points, with the exterior ring closed the way shapely's
`exterior.coords` closes it, and `geom_type == "Polygon"` holding exactly
when the hull has at least 3 vertices.  `make_google_maps_html` builds,
per zone in ascending label order, the hull of `Point(yx[1], yx[0])` for
`yx` in `sub[["lon","lat"]].to_numpy()` — since `yx` is `(lon, lat)`,
these are points `(x, y) = (lat, lon)`, although the inline source
comment claims `x=lon, y=lat` — and then emits every exterior coordinate
`c = (x, y)` through the destructuring `for (lon, lat) in coords` as
`{"lat": float(lat), "lng": float(lon)}`, that is as the pair
`(c.2, c.1)`, while each marker is emitted at `{"lat": r.lat,
"lon": r.lon}`. -/
/-- Cross product `(a - o) × (b - o)`: positive for a counter-clockwise
turn `o → a → b`. -/
def cross (o a b : ℚ × ℚ) : ℚ :=
  (a.1 - o.1) * (b.2 - o.2) - (a.2 - o.2) * (b.1 - o.1)

/-- Monotone-chain pop: drop the chain head while the last two kept
points and the incoming point fail to make a strict left turn. -/
def popChain (p : ℚ × ℚ) : List (ℚ × ℚ) → List (ℚ × ℚ)
  | b :: a :: rest =>
      if cross a b p ≤ 0 then popChain p (a :: rest) else b :: a :: rest
  | l => l

/-- Build one hull chain (stored in reverse) over the given point order. -/
def buildChain (pts : List (ℚ × ℚ)) : List (ℚ × ℚ) :=
  pts.foldl (fun acc p => p :: popChain p acc) []

/-- Insert into a lexicographically sorted point list. -/
def insertLex (p : ℚ × ℚ) : List (ℚ × ℚ) → List (ℚ × ℚ)
  | [] => [p]
  | q :: t =>
      if p.1 < q.1 ∨ (p.1 = q.1 ∧ p.2 ≤ q.2) then p :: q :: t
      else q :: insertLex p t

/-- Lexicographic insertion sort of the points. -/
def sortPts (pts : List (ℚ × ℚ)) : List (ℚ × ℚ) := pts.foldr insertLex []

/-- The convex hull vertex cycle (counter-clockwise, lower chain then
upper chain), as shapely's `convex_hull` of the same points. -/
def convexHullPts (pts : List (ℚ × ℚ)) : List (ℚ × ℚ) :=
  let s := sortPts pts
  let lower := (buildChain s).reverse
  let upper := (buildChain s.reverse).reverse
  lower.dropLast ++ upper.dropLast

/-- Close the exterior ring by repeating the first vertex, as
shapely's `exterior.coords` does. -/
def closeRing (l : List (ℚ × ℚ)) : List (ℚ × ℚ) := l ++ l.take 1

/-- Sorted insertion for zone labels. -/
def insertZone (n : Nat) : List Nat → List Nat
  | [] => [n]
  | m :: t => if n ≤ m then n :: m :: t else m :: insertZone n t

/-- The distinct zone labels in ascending order, as
`df.groupby("zone")` iterates them. -/
def sortedZones (pts : List ((ℚ × ℚ) × Nat)) : List Nat :=
  ((pts.map Prod.snd).dedup).foldr insertZone []

/-- `zone_polys` of `make_google_maps_html`: per zone, the closed
exterior ring of the hull of the members' `(x, y) = (lat, lon)` points,
kept only when the hull is a proper polygon (at least 3 vertices);
degenerate zones are silently omitted. -/
def googleZonePolys (pts : List ((ℚ × ℚ) × Nat)) :
    List (Nat × List (ℚ × ℚ)) :=
  (sortedZones pts).filterMap (fun z =>
    let sub := pts.filterMap (fun p => if p.2 = z then some p.1 else none)
    let hull := convexHullPts sub
    if 3 ≤ hull.length then some (z, closeRing hull) else none)

/-- `hulls_js`: each exterior coordinate `c` is emitted through the
destructuring `for (lon, lat) in coords` as `{"lat": c.2, "lng": c.1}` —
the emitted pair is `(c.2, c.1)` in `(lat, lng)` key order. -/
def hullsJs (pts : List ((ℚ × ℚ) × Nat)) : List (Nat × List (ℚ × ℚ)) :=
  (googleZonePolys pts).map (fun zc => (zc.1, zc.2.map (fun c => (c.2, c.1))))

/-- Membership of a point in the convex polygon with the given closed
vertex ring: the point is on the same side (or on) every edge. -/
def inConvexPoly (p : ℚ × ℚ) (verts : List (ℚ × ℚ)) : Prop :=
  (∀ e ∈ verts.zip verts.tail, 0 ≤ cross e.1 e.2 p)
  ∨ (∀ e ∈ verts.zip verts.tail, cross e.1 e.2 p ≤ 0)

/-- Characterisation of the scan: starting from an arbitrary accumulator,
either no eligible candidate strictly beats the incoming score and the
accumulator is returned unchanged, or the result is the first eligible
candidate attaining the maximum eligible score (strictly above the
incoming score). -/
theorem foldl_bestStep_char (labels : Nat → List Nat) (score : Nat → ℚ) :
    ∀ (l : List Nat) (bk : Nat) (bs : ℚ),
      (l.foldl (bestStep labels score) (bk, bs) = (bk, bs)
        ∧ ∀ j ∈ l, degenerate (labels j) = false → score j ≤ bs)
      ∨ (∃ m l₁ l₂, l = l₁ ++ m :: l₂
          ∧ degenerate (labels m) = false ∧ bs < score m
          ∧ l.foldl (bestStep labels score) (bk, bs) = (m, score m)
          ∧ (∀ j ∈ l₁, degenerate (labels j) = false → score j < score m)
          ∧ (∀ j ∈ l₂, degenerate (labels j) = false → score j ≤ score m)) := by
  intro l
  induction l with
  | nil => intro bk bs; exact Or.inl ⟨rfl, by simp⟩
  | cons k t ih =>
    intro bk bs
    by_cases hd : degenerate (labels k) = true
    · have hstep : bestStep labels score (bk, bs) k = (bk, bs) := by
        simp [bestStep, hd]
      rcases ih bk bs with ⟨heq, hall⟩ | ⟨m, l₁, l₂, hsplit, hm, hlt, heq, h1, h2⟩
      · refine Or.inl ⟨?_, ?_⟩
        · simpa [List.foldl_cons, hstep] using heq
        · intro j hj hnd
          rcases List.mem_cons.mp hj with rfl | hj'
          · simp [hd] at hnd
          · exact hall j hj' hnd
      · refine Or.inr ⟨m, k :: l₁, l₂, by simp [hsplit], hm, hlt, ?_, ?_, h2⟩
        · simpa [List.foldl_cons, hstep] using heq
        · intro j hj hnd
          rcases List.mem_cons.mp hj with rfl | hj'
          · simp [hd] at hnd
          · exact h1 j hj' hnd
    · have hd' : degenerate (labels k) = false := by
        simpa using hd
      by_cases hlt : bs < score k
      · have hstep : bestStep labels score (bk, bs) k = (k, score k) := by
          simp [bestStep, hd', hlt]
        rcases ih k (score k) with ⟨heq, hall⟩ |
          ⟨m, l₁, l₂, hsplit, hm, hlt', heq, h1, h2⟩
        · refine Or.inr ⟨k, [], t, by simp, hd', hlt, ?_, by simp, hall⟩
          simpa [List.foldl_cons, hstep] using heq
        · refine Or.inr ⟨m, k :: l₁, l₂, by simp [hsplit], hm,
            lt_trans hlt hlt', ?_, ?_, h2⟩
          · simpa [List.foldl_cons, hstep] using heq
          · intro j hj hnd
            rcases List.mem_cons.mp hj with rfl | hj'
            · exact hlt'
            · exact h1 j hj' hnd
      · have hstep : bestStep labels score (bk, bs) k = (bk, bs) := by
          simp [bestStep, hd', hlt]
        have hk_le : score k ≤ bs := le_of_not_lt hlt
        rcases ih bk bs with ⟨heq, hall⟩ | ⟨m, l₁, l₂, hsplit, hm, hlt', heq, h1, h2⟩
        · refine Or.inl ⟨?_, ?_⟩
          · simpa [List.foldl_cons, hstep] using heq
          · intro j hj hnd
            rcases List.mem_cons.mp hj with rfl | hj'
            · exact hk_le
            · exact hall j hj' hnd
        · refine Or.inr ⟨m, k :: l₁, l₂, by simp [hsplit], hm, hlt', ?_, ?_, h2⟩
          · simpa [List.foldl_cons, hstep] using heq
          · intro j hj hnd
            rcases List.mem_cons.mp hj with rfl | hj'
            · exact lt_of_le_of_lt hk_le hlt'
            · exact h1 j hj' hnd

/-- C1. `choose_best_k` returns, among the candidates `k` in `[kmin, kmax]`
whose partition does not collapse to a single label, the `k` with the
strictly highest silhouette score, keeping the lowest such `k` on ties
(only strict improvements update the running best during the increasing
scan); if every candidate in range is degenerate it returns `kmin`.
Hypothesis `H` records the range of sklearn's silhouette score on a
labelling with at least two distinct labels: the mean silhouette is
strictly above `-1` (a sample can only attain `-1` when all points of its
nearest other cluster coincide with it, and any point of that other
cluster then has silhouette `0` or `1`). -/
theorem choose_best_k_selects (labels : Nat → List Nat) (score : Nat → ℚ)
    (kmin kmax : Nat)
    (H : ∀ k ∈ kRange kmin kmax, degenerate (labels k) = false → -1 < score k) :
    ((∀ k ∈ kRange kmin kmax, degenerate (labels k) = true) →
      choose_best_k labels score kmin kmax = kmin)
    ∧ (∀ k₀ ∈ kRange kmin kmax, degenerate (labels k₀) = false →
        choose_best_k labels score kmin kmax ∈ kRange kmin kmax
        ∧ degenerate (labels (choose_best_k labels score kmin kmax)) = false
        ∧ (∀ j ∈ kRange kmin kmax, degenerate (labels j) = false →
            score j ≤ score (choose_best_k labels score kmin kmax))
        ∧ (∀ j ∈ kRange kmin kmax, degenerate (labels j) = false →
            score j = score (choose_best_k labels score kmin kmax) →
            choose_best_k labels score kmin kmax ≤ j)) := by
  rcases foldl_bestStep_char labels score (kRange kmin kmax) kmin (-1) with
    ⟨heq, hall⟩ | ⟨m, l₁, l₂, hsplit, hm, hlt, heq, h1, h2⟩
  · constructor
    · intro _
      simp [choose_best_k, heq]
    · intro k₀ hk₀ hnd
      exact absurd (H k₀ hk₀ hnd) (not_lt.mpr (hall k₀ hk₀ hnd))
  · have hmem : m ∈ kRange kmin kmax := by
      rw [hsplit]; exact List.mem_append_right _ (List.mem_cons_self _ _)
    have hr : choose_best_k labels score kmin kmax = m := by
      simp [choose_best_k, heq]
    constructor
    · intro hdeg
      exact absurd (hdeg m hmem) (by simp [hm])
    · intro k₀ hk₀ hnd₀
      rw [hr]
      refine ⟨hmem, hm, ?_, ?_⟩
      · intro j hj hnd
        rw [hsplit] at hj
        rcases List.mem_append.mp hj with hj₁ | hj₂
        · exact le_of_lt (h1 j hj₁ hnd)
        · rcases List.mem_cons.mp hj₂ with rfl | hj₂'
          · exact le_refl _
          · exact h2 j hj₂' hnd
      · intro j hj hnd hsc
        rw [hsplit] at hj
        rcases List.mem_append.mp hj with hj₁ | hj₂
        · exact absurd hsc (ne_of_lt (h1 j hj₁ hnd))
        · rcases List.mem_cons.mp hj₂ with rfl | hj₂'
          · exact le_refl _
          · have hpair : (kRange kmin kmax).Pairwise (· < ·) :=
              List.pairwise_lt_range' kmin (kmax + 1 - kmin)
            rw [hsplit] at hpair
            have := (List.pairwise_append.mp hpair).2.1
            exact le_of_lt ((List.pairwise_cons.mp this).1 j hj₂')

/-- Witness for `choose_best_k_selects`: with `kmin = 2`, `kmax = 4`,
candidate 2 degenerate and candidates 3 and 4 tied at score `1`, the
selector keeps the lower candidate 3. -/
theorem choose_best_k_selects_witness :
    choose_best_k (fun k => if k = 2 then [0, 0] else [0, 1])
        (fun _ => (1 : ℚ)) 2 4 ∈ kRange 2 4
      ∧ degenerate ((fun k => if k = 2 then [0, 0] else [0, 1])
          (choose_best_k (fun k => if k = 2 then [0, 0] else [0, 1])
            (fun _ => (1 : ℚ)) 2 4)) = false
      ∧ (∀ j ∈ kRange 2 4,
          degenerate ((fun k => if k = 2 then [0, 0] else [0, 1]) j) = false →
          (fun _ : Nat => (1 : ℚ)) j ≤ (fun _ : Nat => (1 : ℚ))
            (choose_best_k (fun k => if k = 2 then [0, 0] else [0, 1])
              (fun _ => (1 : ℚ)) 2 4))
      ∧ (∀ j ∈ kRange 2 4,
          degenerate ((fun k => if k = 2 then [0, 0] else [0, 1]) j) = false →
          (fun _ : Nat => (1 : ℚ)) j = (fun _ : Nat => (1 : ℚ))
            (choose_best_k (fun k => if k = 2 then [0, 0] else [0, 1])
              (fun _ => (1 : ℚ)) 2 4) →
          choose_best_k (fun k => if k = 2 then [0, 0] else [0, 1])
            (fun _ => (1 : ℚ)) 2 4 ≤ j) :=
  (choose_best_k_selects (fun k => if k = 2 then [0, 0] else [0, 1])
    (fun _ => (1 : ℚ)) 2 4 (by decide)).2 3 (by decide) (by decide)

/-- C2, counterexample.  A transport fault on the middle query `"b"` makes
the whole `geocode_opencage` batch fail: the result is the propagated
exception, query `"b"` does not yield the sentinel, and query `"c"` is
never requested — contradicting the claim that a transport/parse fault on
one query fails only that query while the rest of the batch is resolved. -/
theorem geocode_fault_kills_batch :
    geocode_opencage "KEY" httpFaultOnB ["a", "b", "c"] =
      (Except.error "URLError", ["a", "b"]) := by
  rfl

/-- If every query in `l` parses without an exception, the loop issues all
requests in order and stores each query's own outcome. -/
theorem runQueries_all_ok (http : String → Except String (Option (ℚ × ℚ)))
    (l : List String) (h : ∀ q ∈ l, ∃ r, http q = .ok r) :
    runQueries http l = (.ok (l.map (resultOf http)), l) := by
  induction l with
  | nil => rfl
  | cons q t ih =>
    obtain ⟨r, hr⟩ := h q (List.mem_cons_self q t)
    have ht := ih fun p hp => h p (List.mem_cons_of_mem q hp)
    simp [runQueries, hr, ht, resultOf]

/-- If the queries before `q` all parse and `q` raises `e`, the loop
aborts with `e`, having requested exactly the prefix up to `q`. -/
theorem runQueries_fault (http : String → Except String (Option (ℚ × ℚ))) :
    ∀ (l₁ : List String) (q : String) (l₂ : List String) (e : String),
      (∀ p ∈ l₁, ∃ r, http p = .ok r) → http q = .error e →
      runQueries http (l₁ ++ q :: l₂) = (.error e, l₁ ++ [q]) := by
  intro l₁
  induction l₁ with
  | nil => intro q l₂ e _ hq; simp [runQueries, hq]
  | cons p t ih =>
    intro q l₂ e h hq
    obtain ⟨r, hr⟩ := h p (List.mem_cons_self p t)
    have ht := ih q l₂ e (fun p' hp' => h p' (List.mem_cons_of_mem p hp')) hq
    simp [runQueries, hr, ht]

/-- C2, amended.  With a key present, `geocode_opencage` resolves a batch
query-by-query: a provider response with zero candidates yields the
failure sentinel for that query alone while every other query is still
resolved; but an uncaught transport/parse exception on any query aborts
the entire batch (later queries are not even requested). -/
theorem geocode_opencage_batch_behaviour (apiKey : String)
    (http : String → Except String (Option (ℚ × ℚ)))
    (queries : List String) (hkey : apiKey ≠ "") :
    ((∀ q ∈ queries, ∃ r, http q = .ok r) →
      geocode_opencage apiKey http queries =
        (.ok (queries.map (resultOf http)), queries))
    ∧ (∀ (l₁ : List String) (q : String) (l₂ : List String) (e : String),
        queries = l₁ ++ q :: l₂ →
        (∀ p ∈ l₁, ∃ r, http p = .ok r) → http q = .error e →
        geocode_opencage apiKey http queries = (.error e, l₁ ++ [q])) := by
  constructor
  · intro h
    simp [geocode_opencage, hkey, runQueries_all_ok http queries h]
  · intro l₁ q l₂ e hsplit h1 hq
    subst hsplit
    simp [geocode_opencage, hkey, runQueries_fault http l₁ q l₂ e h1 hq]

/-- Witness for `geocode_opencage_batch_behaviour`: a batch where `"nf"`
gets an empty candidate list resolves with a sentinel exactly at `"nf"`,
and a batch whose second query raises aborts as a whole. -/
theorem geocode_opencage_batch_behaviour_witness :
    geocode_opencage "KEY" httpNoMatchOnNf ["a", "nf"] =
      (.ok [.coords 7 8, .sentinel], ["a", "nf"])
    ∧ geocode_opencage "KEY" httpFaultOnB ["a", "b", "c"] =
        (.error "URLError", ["a", "b"]) := by
  have hok : ∀ q ∈ ["a", "nf"], ∃ r, httpNoMatchOnNf q = Except.ok r := by
    intro q hq
    fin_cases hq
    · exact ⟨some (7, 8), rfl⟩
    · exact ⟨none, rfl⟩
  have hpre : ∀ p ∈ ["a"], ∃ r, httpFaultOnB p = Except.ok r := by
    intro p hp
    fin_cases hp
    exact ⟨some (1, 2), rfl⟩
  constructor
  · have h := (geocode_opencage_batch_behaviour "KEY" httpNoMatchOnNf
      ["a", "nf"] (by decide)).1 hok
    simpa [resultOf, mkResult] using h
  · exact (geocode_opencage_batch_behaviour "KEY" httpFaultOnB
      ["a", "b", "c"] (by decide)).2 ["a"] "b" ["c"] "URLError" rfl hpre rfl

/-- C7, counterexample.  The claim says a present, non-empty full-address
field is returned verbatim; the code returns `str(...).strip()` of it, so
a field with surrounding whitespace is not returned verbatim. -/
theorem assemble_query_not_verbatim :
    assemble_query [("Address", Cell.str " 5 Elm St ")] none = "5 Elm St"
    ∧ assemble_query [("Address", Cell.str " 5 Elm St ")] none
        ≠ " 5 Elm St " := by
  exact ⟨rfl, by decide⟩

/-- C7, amended.  `assemble_query` implements exactly the amended rule:
stripped full-address field when present and non-blank, else the stripped
non-empty components in fixed order with `", "` separators, and in either
case the context appended iff its lowercase form is not already a
substring (case-insensitively) of the assembled query. -/
theorem assemble_query_follows_amended_rule (r : Row)
    (cityContext : Option String) :
    assemble_query r cityContext = assembleQueryAmended r cityContext := by
  unfold assemble_query assembleQueryAmended
  cases cityContext <;> split <;> rfl

/-- Zipping a list with its own map and consuming pointwise is a single
`filterMap`. -/
theorem zip_map_filterMap {α β γ : Type} (f : α → β) (g : α → β → Option γ) :
    ∀ l : List α,
      (l.zip (l.map f)).filterMap (fun p => g p.1 p.2)
        = l.filterMap (fun a => g a (f a)) := by
  intro l
  induction l with
  | nil => rfl
  | cons a t ih => cases hh : g a (f a) <;> simp [List.zip_cons_cons, hh, ih]

/-- C5.  `geocode_df` skips geocoding exactly when the table declares both
a `lat` and a `lon` column: in that case it returns the input unchanged,
issues no request, and its result does not depend on the HTTP oracle at
all; when either column is missing (and a live geocoder with a key is
selected and no query raises) it issues exactly one request per input
row, in order — every row is geocoded. -/
theorem geocode_df_skips_iff_both_columns (df : DataFrame) (gname : String)
    (keys : String → String)
    (http http' : String → Except String (Option (ℚ × ℚ)))
    (ctx : Option String) :
    (hasBoth df = true →
      geocode_df df gname keys http ctx = (.ok df, [])
      ∧ geocode_df df gname keys http ctx = geocode_df df gname keys http' ctx)
    ∧ (hasBoth df = false →
      (gname = "opencage" ∨ gname = "geoapify" ∨ gname = "google") →
      (∀ n, keys n ≠ "") →
      (∀ q, ∃ r, http q = .ok r) →
      (geocode_df df gname keys http ctx).2
        = df.rows.map (fun r => assemble_query r ctx)) := by
  constructor
  · intro h
    constructor <;> simp [geocode_df, h]
  · intro h hg hk hok
    have hall : ∀ q ∈ df.rows.map (fun r => assemble_query r ctx),
        ∃ r, http q = .ok r := fun q _ => hok q
    rcases hg with rfl | rfl | rfl
    · simp [geocode_df, h, geocode_opencage, hk "opencage",
        runQueries_all_ok http _ hall]
    · simp [geocode_df, h, geocode_geoapify, hk "geoapify",
        runQueries_all_ok http _ hall]
    · simp [geocode_df, h, geocode_google, hk "google",
        runQueries_all_ok http _ hall]

/-- Witness for `geocode_df_skips_iff_both_columns`: a table already
declaring `lat` and `lon` passes through unchanged for two different
oracles, and the two-address table without them dispatches exactly its
two assembled queries. -/
theorem geocode_df_skips_iff_both_columns_witness :
    (geocode_df ⟨["lat", "lon"], [[("lat", Cell.num 40), ("lon", Cell.num 75)]]⟩
        "opencage" (fun _ => "K") httpNoMatchOnNf none
      = (.ok ⟨["lat", "lon"], [[("lat", Cell.num 40), ("lon", Cell.num 75)]]⟩, [])
      ∧ geocode_df ⟨["lat", "lon"], [[("lat", Cell.num 40), ("lon", Cell.num 75)]]⟩
          "opencage" (fun _ => "K") httpNoMatchOnNf none
        = geocode_df ⟨["lat", "lon"], [[("lat", Cell.num 40), ("lon", Cell.num 75)]]⟩
            "opencage" (fun _ => "K") httpFaultOnB none)
    ∧ (geocode_df dfTwoAddresses "opencage" (fun _ => "K")
        httpNoMatchOnNf none).2 = ["12 Oak", "9 Pine"] := by
  constructor
  · exact (geocode_df_skips_iff_both_columns
      ⟨["lat", "lon"], [[("lat", Cell.num 40), ("lon", Cell.num 75)]]⟩
      "opencage" (fun _ => "K") httpNoMatchOnNf httpFaultOnB none).1 rfl
  · have h := (geocode_df_skips_iff_both_columns dfTwoAddresses
      "opencage" (fun _ => "K") httpNoMatchOnNf httpFaultOnB none).2
      rfl (Or.inl rfl) (fun _ => by decide)
      (fun q => ⟨(httpNoMatchOnNf q).toOption.join,
        by unfold httpNoMatchOnNf; split <;> rfl⟩)
    rw [h]
    rfl

/-- C10.  When the input table declares both a `lat` and a `lon` column,
`geocode_df` returns it exactly as received — every row retained, no
request issued, and no coordinate value inspected: rows whose `lat` or
`lon` cell is `nan` (or anything else) are not dropped in this branch,
and, the resolved table being the input itself, they reach the
partitioning step unchanged whenever the table is non-empty. -/
theorem geocode_df_passthrough_unvalidated (df : DataFrame) (gname : String)
    (keys : String → String)
    (http : String → Except String (Option (ℚ × ℚ))) (ctx : Option String)
    (h : hasBoth df = true) :
    geocode_df df gname keys http ctx = (.ok df, [])
    ∧ (df.rows ≠ [] →
        resolveRecords df gname keys http ctx = (.ok df, [])) := by
  constructor
  · simp [geocode_df, h]
  · intro hne
    have hne' : df.rows.isEmpty = false := by
      simpa [List.isEmpty_iff] using hne
    simp [resolveRecords, geocode_df, h, hne']

/-- Witness for `geocode_df_passthrough_unvalidated`: a one-row table
whose `lat` cell is `nan` still passes through whole. -/
theorem geocode_df_passthrough_unvalidated_witness :
    geocode_df ⟨["lat", "lon"], [[("lat", Cell.nan), ("lon", Cell.num 1)]]⟩
        "opencage" (fun _ => "K") httpNoMatchOnNf none
      = (.ok ⟨["lat", "lon"], [[("lat", Cell.nan), ("lon", Cell.num 1)]]⟩, [])
    ∧ resolveRecords ⟨["lat", "lon"], [[("lat", Cell.nan), ("lon", Cell.num 1)]]⟩
        "opencage" (fun _ => "K") httpNoMatchOnNf none
      = (.ok ⟨["lat", "lon"], [[("lat", Cell.nan), ("lon", Cell.num 1)]]⟩, []) := by
  have h := geocode_df_passthrough_unvalidated
    ⟨["lat", "lon"], [[("lat", Cell.nan), ("lon", Cell.num 1)]]⟩
    "opencage" (fun _ => "K") httpNoMatchOnNf none rfl
  exact ⟨h.1, h.2 (by simp)⟩

/-- C6.  On the geocoding branch with a live configured adapter and no
transport/parse fault, the resolver attaches each row's own result and
silently drops exactly the rows whose result is the failure sentinel;
`main` then aborts fatally with the diagnostic `emptyMsg` precisely when
the post-drop row set is empty, and proceeds with the surviving table
otherwise. -/
theorem resolveRecords_drop_and_guard (df : DataFrame)
    (gname : String) (keys : String → String)
    (http : String → Except String (Option (ℚ × ℚ))) (ctx : Option String)
    (h : hasBoth df = false) (hg : gname = "opencage")
    (hk : keys "opencage" ≠ "") (hok : ∀ q, ∃ r, http q = .ok r) :
    ∃ out : DataFrame,
      geocode_df df gname keys http ctx
        = (.ok out, df.rows.map (fun r => assemble_query r ctx))
      ∧ out.rows = df.rows.filterMap
          (fun r => attachCoord r (resultOf http (assemble_query r ctx)))
      ∧ (out.rows = [] →
          resolveRecords df gname keys http ctx
            = (.error emptyMsg, df.rows.map (fun r => assemble_query r ctx)))
      ∧ (out.rows ≠ [] →
          resolveRecords df gname keys http ctx
            = (.ok out, df.rows.map (fun r => assemble_query r ctx))) := by
  subst hg
  have hall : ∀ q ∈ df.rows.map (fun r => assemble_query r ctx),
      ∃ r, http q = .ok r := fun q _ => hok q
  have hgeo : geocode_df df "opencage" keys http ctx
      = (.ok { cols := addCol (addCol df.cols "lat") "lon",
               rows := df.rows.filterMap
                 (fun r => attachCoord r (resultOf http (assemble_query r ctx))) },
         df.rows.map (fun r => assemble_query r ctx)) := by
    simp [geocode_df, h, geocode_opencage, hk,
      runQueries_all_ok http _ hall, List.map_map, Function.comp,
      zip_map_filterMap]
  refine ⟨_, hgeo, rfl, ?_, ?_⟩
  · intro hempty
    have hempty' : (df.rows.filterMap
        (fun r => attachCoord r (resultOf http (assemble_query r ctx)))).isEmpty
          = true := by
      simp only [List.isEmpty_iff]
      exact hempty
    simp [resolveRecords, hgeo, hempty']
  · intro hne
    have hne' : (df.rows.filterMap
        (fun r => attachCoord r (resultOf http (assemble_query r ctx)))).isEmpty
          = false := by
      simpa [List.isEmpty_iff] using hne
    simp [resolveRecords, hgeo, hne']

/-- Witness for `resolveRecords_drop_and_guard`: of the two rows of
`dfTwoAddresses`, the `"9 Pine"` row resolves to the sentinel and is
dropped; one row survives, so the run proceeds with it. -/
theorem resolveRecords_drop_and_guard_witness :
    resolveRecords dfTwoAddresses "opencage" (fun _ => "K") httpOakOnly none
      = (.ok ⟨["address", "lat", "lon"],
          [[("address", Cell.str "12 Oak"),
            ("lat", Cell.num 1), ("lon", Cell.num 2)]]⟩,
         ["12 Oak", "9 Pine"]) := by
  obtain ⟨out, h1, h2, h3, h4⟩ := resolveRecords_drop_and_guard dfTwoAddresses
    "opencage" (fun _ => "K") httpOakOnly none rfl rfl (by decide)
    (fun q => ⟨(httpOakOnly q).toOption.join, by unfold httpOakOnly; split <;> rfl⟩)
  have hout : out = ⟨["address", "lat", "lon"],
      [[("address", Cell.str "12 Oak"),
        ("lat", Cell.num 1), ("lon", Cell.num 2)]]⟩ := by
    have h1' : (geocode_df dfTwoAddresses "opencage" (fun _ => "K")
        httpOakOnly none).1 = .ok out := by rw [h1]
    have h1'' : (geocode_df dfTwoAddresses "opencage" (fun _ => "K")
        httpOakOnly none).1 = .ok (⟨["address", "lat", "lon"],
          [[("address", Cell.str "12 Oak"),
            ("lat", Cell.num 1), ("lon", Cell.num 2)]]⟩ : DataFrame) := rfl
    exact Except.ok.inj (h1'.symm.trans h1'')
  have h5 := h4 (by rw [hout]; simp)
  rw [hout] at h5
  exact h5.trans rfl

/-- C3.  The zone column built from `fit_predict(X) + 1` assigns each
point exactly one label (one label per row of `X`), every assigned label
lies in `{1..k}`, and every label of `{1..k}` is assigned to at least one
point.  The hypotheses are sklearn's guarantees for a fitted KMeans with
at least `k` samples: one label per sample, labels below `k`, and no
empty cluster. -/
theorem zone_labels_partition (km : KMeansOracle) (X : List (ℚ × ℚ))
    (k seed : Nat)
    (hlen : (km X k 25 seed).labels.length = X.length)
    (hlt : ∀ l ∈ (km X k 25 seed).labels, l < k)
    (hsurj : ∀ i, i < k → i ∈ (km X k 25 seed).labels) :
    (zoneLabels km X k seed).length = X.length
    ∧ (∀ z ∈ zoneLabels km X k seed, 1 ≤ z ∧ z ≤ k)
    ∧ (∀ z, 1 ≤ z → z ≤ k → z ∈ zoneLabels km X k seed) := by
  refine ⟨by simp [zoneLabels, hlen], ?_, ?_⟩
  · intro z hz
    obtain ⟨l, hl, rfl⟩ := List.mem_map.mp hz
    exact ⟨Nat.succ_le_succ (Nat.zero_le _), Nat.succ_le_of_lt (hlt l hl)⟩
  · intro z h1 h2
    have hz : z - 1 < k := by omega
    exact List.mem_map.mpr ⟨z - 1, hsurj (z - 1) hz, by omega⟩

/-- Witness for `zone_labels_partition` on two points and `k = 2`. -/
theorem zone_labels_partition_witness :
    (zoneLabels kmTwo [(0, 0), (2, 2)] 2 42).length
        = ([(0, 0), (2, 2)] : List (ℚ × ℚ)).length
    ∧ (∀ z ∈ zoneLabels kmTwo [(0, 0), (2, 2)] 2 42, 1 ≤ z ∧ z ≤ 2)
    ∧ (∀ z, 1 ≤ z → z ≤ 2 → z ∈ zoneLabels kmTwo [(0, 0), (2, 2)] 2 42) :=
  zone_labels_partition kmTwo [(0, 0), (2, 2)] 2 42 rfl
    (by intro l hl; fin_cases hl <;> decide)
    (by intro i hi; interval_cases i <;> decide)

/-- Relabelling by `+1` shifts membership: the points with zone `i + 1`
under `labels.map (+1)` are the points with label `i`. -/
theorem membersOf_map_succ (X : List (ℚ × ℚ)) (ls : List Nat) (i : Nat) :
    membersOf X (ls.map (· + 1)) (i + 1) = membersOf X ls i := by
  unfold membersOf
  rw [List.zip_map_right, List.filterMap_map]
  congr 1
  funext p
  by_cases h : p.2 = i <;> simp [Prod.map, h]

/-- C4.  Every row of the centers table records, for its zone label `z`,
exactly the coordinate-wise mean of the points assigned zone `z` (row
`z` is the KMeans cluster `z - 1`, whose points received zone label `z`),
and every zone in `{1..k}` has such a row.  The hypotheses are sklearn's
contract for a converged KMeans fit: `k` centers, center `i` the mean of
the points labelled `i`; over `ℚ` the "within floating tolerance" of the
claim is exact equality. -/
theorem centers_rows_are_zone_means (km : KMeansOracle) (X : List (ℚ × ℚ))
    (k seed : Nat)
    (hcen : (km X k 25 seed).centers.length = k)
    (hmean : ∀ i, i < k →
      (km X k 25 seed).centers.getD i (0, 0)
        = meanPoint (membersOf X (km X k 25 seed).labels i)) :
    (∀ row ∈ centersTable km X k seed,
        1 ≤ row.2 ∧ row.2 ≤ k
        ∧ row.1 = meanPoint (membersOf X (zoneLabels km X k seed) row.2))
    ∧ (∀ z, 1 ≤ z → z ≤ k →
        ∃ c, (c, z) ∈ centersTable km X k seed) := by
  have hlen : (centersTable km X k seed).length = k := by
    simp [centersTable, List.length_zip, hcen]
  constructor
  · intro row hrow
    obtain ⟨i, hi, hrow_eq⟩ := List.mem_iff_getElem.mp hrow
    have hik : i < k := by rwa [hlen] at hi
    have hic : i < (km X k 25 seed).centers.length := by rwa [hcen]
    have hir : i < (List.range' 1 k).length := by
      rwa [List.length_range']
    have hzip : (centersTable km X k seed)[i]
        = ((km X k 25 seed).centers[i], (List.range' 1 k)[i]) :=
      List.getElem_zip
    have hrange : (List.range' 1 k)[i] = 1 + i := by
      rw [List.getElem_range']; ring
    rw [hzip, hrange] at hrow_eq
    have hfst : row.1 = (km X k 25 seed).centers[i] := by
      rw [← hrow_eq]
    have hsnd : row.2 = 1 + i := by rw [← hrow_eq]
    have hmean' := hmean i hik
    rw [List.getD_eq_getElem _ _ hic] at hmean'
    refine ⟨by omega, by omega, ?_⟩
    rw [hfst, hsnd, hmean']
    have : 1 + i = i + 1 := by ring
    rw [this, zoneLabels, membersOf_map_succ]
  · intro z h1 h2
    have hik : z - 1 < k := by omega
    have hic : z - 1 < (km X k 25 seed).centers.length := by omega
    have hi : z - 1 < (centersTable km X k seed).length := by omega
    refine ⟨(km X k 25 seed).centers[z - 1], ?_⟩
    apply List.mem_iff_getElem.mpr
    refine ⟨z - 1, hi, ?_⟩
    have hir : z - 1 < (List.range' 1 k).length := by
      rw [List.length_range']; omega
    have hzip : (centersTable km X k seed)[z - 1]
        = ((km X k 25 seed).centers[z - 1], (List.range' 1 k)[z - 1]) :=
      List.getElem_zip
    rw [hzip, List.getElem_range']
    have : 1 + 1 * (z - 1) = z := by omega
    rw [this]

/-- Witness for `centers_rows_are_zone_means`: the two-cluster oracle on
`[(0,0), (2,2)]` has center `0` equal to the mean of zone-1's point and
center `1` equal to the mean of zone-2's point. -/
theorem centers_rows_are_zone_means_witness :
    (∀ row ∈ centersTable kmTwo [(0, 0), (2, 2)] 2 42,
        1 ≤ row.2 ∧ row.2 ≤ 2
        ∧ row.1 = meanPoint
            (membersOf [(0, 0), (2, 2)] (zoneLabels kmTwo [(0, 0), (2, 2)] 2 42)
              row.2))
    ∧ (∀ z, 1 ≤ z → z ≤ 2 →
        ∃ c, (c, z) ∈ centersTable kmTwo [(0, 0), (2, 2)] 2 42) :=
  centers_rows_are_zone_means kmTwo [(0, 0), (2, 2)] 2 42 rfl
    (by
      intro i hi
      interval_cases i <;> simp [kmTwo, membersOf, meanPoint])

/-- C9.  Two runs of the cluster-count selector followed by the zone
assigner on the same coordinate matrix, range and seed give the same
selected `k` and the same zone labelling (here literally identical, which
is stronger than identity up to relabelling), provided the two runs'
KMeans and silhouette evaluations agree on that input and seed — which is
sklearn's determinism guarantee for a fixed `random_state`. -/
theorem pipeline_two_runs_agree (km km' : KMeansOracle)
    (sil sil' : List (ℚ × ℚ) → List Nat → ℚ) (X : List (ℚ × ℚ))
    (kmin kmax seed : Nat)
    (hkm : ∀ k n, km X k n seed = km' X k n seed)
    (hsil : ∀ ls, sil X ls = sil' X ls) :
    pipelineRun km sil X kmin kmax seed
      = pipelineRun km' sil' X kmin kmax seed := by
  simp only [pipelineRun, zoneLabels, hkm, hsil]

/-- Witness for `pipeline_two_runs_agree` at a concrete matrix, range and
seed, with the two runs' oracles agreeing definitionally. -/
theorem pipeline_two_runs_agree_witness :
    pipelineRun kmTwo (fun _ _ => 1) [(0, 0), (2, 2)] 2 3 42
      = pipelineRun (fun a b c d => kmTwo a b c d) (fun _ _ => 1)
          [(0, 0), (2, 2)] 2 3 42 :=
  pipeline_two_runs_agree kmTwo (fun a b c d => kmTwo a b c d)
    (fun _ _ => 1) (fun _ _ => 1) [(0, 0), (2, 2)] 2 3 42
    (fun _ _ => rfl) (fun _ => rfl)

/-- C8, evaluated at the failing input.  For the single zone 1 with
member points `(lat, lon) ∈ {(0,1), (1,10), (2,0)}`, the computed hull is
the triangle of exactly those members, and the member `(1, 10)` lies on
it; but the emitted `hulls_js` ring has latitude and longitude swapped
(`{"lat": lon, "lng": lat}`), so the marker emitted for that member at
`{"lat": 1, "lng": 10}` does not lie on or inside the emitted boundary
polygon — contradicting the claim that every member point lies within
its zone's boundary polygon.  (The swap contradicts the source's own
`# x=lon, y=lat` comment.) -/
theorem google_hull_latlng_swapped :
    googleZonePolys [((0, 1), 1), ((1, 10), 1), ((2, 0), 1)]
      = [(1, [(0, 1), (2, 0), (1, 10), (0, 1)])]
    ∧ hullsJs [((0, 1), 1), ((1, 10), 1), ((2, 0), 1)]
      = [(1, [(1, 0), (0, 2), (10, 1), (1, 0)])]
    ∧ ¬ inConvexPoly (1, 10) [(1, 0), (0, 2), (10, 1), (1, 0)]
    ∧ inConvexPoly (1, 10) [(0, 1), (2, 0), (1, 10), (0, 1)] := by
  have hpolys : googleZonePolys [((0, 1), 1), ((1, 10), 1), ((2, 0), 1)]
      = [(1, [(0, 1), (2, 0), (1, 10), (0, 1)])] := by
    norm_num [googleZonePolys, sortedZones, insertZone, convexHullPts,
      sortPts, insertLex, buildChain, popChain, cross, closeRing,
      List.filterMap_cons, List.filterMap_nil]
  refine ⟨hpolys, ?_, ?_, ?_⟩
  · rw [hullsJs, hpolys]
    norm_num
  · norm_num [inConvexPoly, cross]
  · norm_num [inConvexPoly, cross]

end ZoneCluster
